import Mathlib

/-!
Verification of the career-analytics and interview state machine core of the
AI_interview repository, against its natural-language specification.

The Python sources embedded here (shallowly) are:
* `src/backend/app/services/analytics/industry_classifier.py`
* `src/backend/app/services/analytics/career_analytics.py`
* `src/backend/app/services/interview/advanced_engine.py` (depth heuristic)
* `src/backend/app/api/v1/endpoints/interview.py` (session state machine,
  aggregate scoring, report recommendation banding)

Conventions: Python strings are Lean `String`s manipulated as `List Char`;
Python `datetime` values are `Date` records (year, month, day) compared
lexicographically; `datetime.now()` is an explicit `now : Date` argument;
Python floats produced by `round(x, 1)` are modelled exactly as rationals
rounded half-to-even at one decimal (`round1`), and score arithmetic is exact
rational arithmetic; fallible parsing returns `Option`.
-/

/-! ## Python string primitives -/

/-- ASCII lower-casing of one character, as `str.lower` acts on ASCII. -/
def pyLowerChar (c : Char) : Char :=
  if 'A' ≤ c ∧ c ≤ 'Z' then Char.ofNat (c.toNat + 32) else c

/-- `str.lower` on the character list. -/
def pyLowerList (l : List Char) : List Char := l.map pyLowerChar

/-- `str.lower` on a string. -/
def pyLower (s : String) : String := ⟨pyLowerList s.toList⟩

/-- Python whitespace characters stripped by `str.strip()` (ASCII range). -/
def pyIsSpace (c : Char) : Bool :=
  c = ' ' ∨ c = Char.ofNat 9 ∨ c = Char.ofNat 10 ∨ c = Char.ofNat 13 ∨
  c = Char.ofNat 11 ∨ c = Char.ofNat 12

/-- `str.strip()` on a character list. -/
def pyStripList (l : List Char) : List Char :=
  ((l.dropWhile pyIsSpace).reverse.dropWhile pyIsSpace).reverse

/-- `str.strip()` on a string. -/
def pyStrip (s : String) : String := ⟨pyStripList s.toList⟩

/-- Python substring containment `needle in haystack` on character lists. -/
def listContains (needle hay : List Char) : Bool :=
  hay.tails.any (fun t => needle.isPrefixOf t)

/-- Python substring containment `needle in haystack` for strings. -/
def pyContains (needle hay : String) : Bool := listContains needle.toList hay.toList

/-- Count of ASCII digit characters in a string (`sum(1 for c in s if c.isdigit())`). -/
def digitCount (s : String) : Nat := s.toList.countP Char.isDigit

/-- Word counter for `len(s.split())`: counts maximal runs of non-whitespace
characters; the flag records whether the previous character was inside a run. -/
def wordsAux : Bool → List Char → Nat
  | _, [] => 0
  | inWord, c :: cs =>
    if pyIsSpace c then wordsAux false cs
    else (if inWord then 0 else 1) + wordsAux true cs

/-- `len(s.split())`. -/
def pyWordCount (s : String) : Nat := wordsAux false s.toList

/-- Fuel-driven scanner for the non-overlapping occurrence count: every step
consumes at least one character of the haystack, so haystack length is
enough fuel (structural recursion keeps the definition kernel-reducible). -/
def countOccAux (needle : List Char) : Nat → List Char → Nat
  | 0, _ => 0
  | _, [] => 0
  | fuel + 1, h :: t =>
    if needle.isPrefixOf (h :: t) then
      1 + countOccAux needle fuel (t.drop (needle.length - 1))
    else
      countOccAux needle fuel t

/-- Non-overlapping occurrence count, Python `haystack.count(needle)` for a
nonempty needle (scans left to right, resuming after each match). -/
def countOccList (needle l : List Char) : Nat := countOccAux needle l.length l

/-- `haystack.count(needle)` for strings. -/
def pyCount (needle hay : String) : Nat := countOccList needle.toList hay.toList

/-! ## Dates (`datetime.datetime` restricted to year/month/day) -/

/-- A `datetime` value as used by the analytics code: only the calendar date
part ever matters (parsed dates have zero time-of-day, and `datetime.now()`
only feeds year/month/day differences). -/
structure Date where
  y : Nat
  m : Nat
  d : Nat
deriving Repr, DecidableEq

/-- `datetime.min`, the sort key substituted for unparseable start dates. -/
def dateMin : Date := ⟨1, 1, 1⟩

/-- Lexicographic strict order on dates, matching `datetime` comparison. -/
def dateLt (a b : Date) : Bool :=
  a.y < b.y ∨ (a.y = b.y ∧ (a.m < b.m ∨ (a.m = b.m ∧ a.d < b.d)))

/-- Gregorian leap-year test. -/
def isLeap (y : Nat) : Bool := y % 4 = 0 ∧ (y % 100 ≠ 0 ∨ y % 400 = 0)

/-- Days in a month of the proleptic Gregorian calendar (0 for bad months). -/
def monthDays (y m : Nat) : Nat :=
  match m with
  | 1 => 31 | 2 => if isLeap y then 29 else 28 | 3 => 31 | 4 => 30
  | 5 => 31 | 6 => 30 | 7 => 31 | 8 => 31 | 9 => 30 | 10 => 31
  | 11 => 30 | 12 => 31 | _ => 0

/-- Days in the year strictly before month `m`. -/
def daysBeforeMonth (y m : Nat) : Nat :=
  (List.range (m - 1)).foldl (fun acc i => acc + monthDays y (i + 1)) 0

/-- `date.toordinal()`: day number with `0001-01-01` as day 1; differences of
ordinals are exactly Python `(d2 - d1).days` for midnight datetimes. -/
def ordinal (dt : Date) : Nat :=
  let q := dt.y - 1
  365 * q + q / 4 + q / 400 - q / 100 + daysBeforeMonth dt.y dt.m + dt.d

/-- Decimal digits of a natural number, left-padded with zeros to width `w`
(`"%04d"`-style formatting used by `strftime`). -/
def padNat (w n : Nat) : String :=
  let s := toString n
  ⟨List.replicate (w - s.length) '0'⟩ ++ s

/-- `datetime.strftime("%Y-%m")`. -/
def formatYM (dt : Date) : String := padNat 4 dt.y ++ "-" ++ padNat 2 dt.m

/-! ### `strptime`-style parsing of the accepted date formats -/

/-- Read a decimal digit list as a number. -/
def digitsToNat (l : List Char) : Nat :=
  l.foldl (fun acc c => 10 * acc + (c.toNat - 48)) 0

/-- `strptime(s, "%Y-%m")` (or with `/`): exactly four year digits, the
separator, then a one- or two-digit month in 1..12; year 0 is rejected by the
`datetime` constructor. -/
def parseYMSep (sep : Char) (l : List Char) : Option Date :=
  match l with
  | c1 :: c2 :: c3 :: c4 :: s :: rest =>
    if ([c1, c2, c3, c4].all Char.isDigit ∧ s = sep ∧ rest.all Char.isDigit ∧
        (rest.length = 1 ∨ rest.length = 2) : Bool) then
      if (1 ≤ digitsToNat [c1, c2, c3, c4] ∧ 1 ≤ digitsToNat rest ∧
          digitsToNat rest ≤ 12 : Bool) then
        some ⟨digitsToNat [c1, c2, c3, c4], digitsToNat rest, 1⟩
      else none
    else none
  | _ => none

/-- `strptime(s, "%Y-%m-%d")` with the day validated against the month length
(as the `datetime` constructor does). -/
def parseYMD (l : List Char) : Option Date :=
  match l with
  | c1 :: c2 :: c3 :: c4 :: s :: rest =>
    if ([c1, c2, c3, c4].all Char.isDigit ∧ s = '-' : Bool) then
      match rest.dropWhile Char.isDigit with
      | '-' :: ds =>
        if (ds.all Char.isDigit ∧
            ((rest.takeWhile Char.isDigit).length = 1 ∨
              (rest.takeWhile Char.isDigit).length = 2) ∧
            (ds.length = 1 ∨ ds.length = 2) : Bool) then
          if (1 ≤ digitsToNat [c1, c2, c3, c4] ∧
              1 ≤ digitsToNat (rest.takeWhile Char.isDigit) ∧
              digitsToNat (rest.takeWhile Char.isDigit) ≤ 12 ∧
              1 ≤ digitsToNat ds ∧
              digitsToNat ds ≤ monthDays (digitsToNat [c1, c2, c3, c4])
                (digitsToNat (rest.takeWhile Char.isDigit)) : Bool) then
            some ⟨digitsToNat [c1, c2, c3, c4],
              digitsToNat (rest.takeWhile Char.isDigit), digitsToNat ds⟩
          else none
        else none
      | _ => none
    else none
  | _ => none

/-- `strptime(s, "%Y")`: exactly four digits, year at least 1. -/
def parseY (l : List Char) : Option Date :=
  if (l.length = 4 ∧ l.all Char.isDigit ∧ 1 ≤ digitsToNat l : Bool) then
    some ⟨digitsToNat l, 1, 1⟩
  else none

/-- `self._parse_date` of `CareerAnalytics` (career_analytics.py lines
760-777): `None`, the empty string and "present"/"current"/"now" map to no
date; otherwise the formats `%Y-%m`, `%Y/%m`, `%Y-%m-%d`, `%Y` are tried in
order. (In the API flow date values are strings or absent; the
`isinstance(date_value, datetime)` branch is never exercised.) -/
def parse_date (v : Option String) : Option Date :=
  match v with
  | none => none
  | some s =>
    if s = "" then none
    else if pyLower s = "present" ∨ pyLower s = "current" ∨ pyLower s = "now" then none
    else
      (parseYMSep '-' s.toList).orElse fun _ =>
      (parseYMSep '/' s.toList).orElse fun _ =>
      (parseYMD s.toList).orElse fun _ =>
      parseY s.toList

/-! ## Exact model of `round(x, 1)`

Python `round` rounds half to even. The quantities rounded by this code are
ratios of small integers; at every representable tie the float result agrees
with exact half-to-even rounding of the rational value, so we model
`round(x, 1)` as exact half-to-even rounding at one decimal. -/

/-- Half-to-even rounding of `n / d` for `d > 0` (floor division plus a
remainder comparison, ties going to the even quotient). -/
def halfEvenDiv (n : Int) (d : Int) : Int :=
  if 2 * (n % d) < d then n / d
  else if 2 * (n % d) > d then n / d + 1
  else if (n / d) % 2 = 0 then n / d else n / d + 1

/-- `round(q, 1)` as an exact rational. -/
def round1 (q : ℚ) : ℚ := (halfEvenDiv (q.num * 10) q.den : ℚ) / 10

/-! ## IndustryClassifier (industry_classifier.py) -/

/-- `INDUSTRY_KEYWORDS` (industry_classifier.py lines 26-120), in declaration
order (Python dict iteration order is insertion order). -/
def INDUSTRY_KEYWORDS : List (String × List String) := [
  ("fintech", ["bank", "banking", "payment", "payments", "finance", "financial",
    "trading", "investment", "wealth", "insurance", "lending", "credit",
    "crypto", "blockchain", "defi", "fintech", "capital", "securities",
    "brokerage", "hedge fund", "asset management", "treasury", "mortgage"]),
  ("healthcare", ["health", "medical", "hospital", "pharma", "pharmaceutical", "biotech",
    "biotechnology", "clinical", "patient", "healthcare", "life sciences",
    "genomics", "diagnostics", "therapeutic", "wellness", "telemedicine",
    "healthtech", "medtech", "drug", "vaccine", "oncology"]),
  ("ecommerce", ["retail", "commerce", "ecommerce", "e-commerce", "shopping", "marketplace",
    "store", "merchant", "checkout", "cart", "fulfillment", "logistics",
    "delivery", "supply chain", "inventory", "wholesale", "consumer goods"]),
  ("saas", ["software", "cloud", "platform", "subscription", "saas", "b2b",
    "enterprise software", "crm", "erp", "hris", "collaboration",
    "productivity", "workflow", "automation", "integration"]),
  ("tech", ["technology", "tech", "digital", "internet", "web", "mobile",
    "app", "startup", "innovation", "engineering", "developer",
    "computing", "information technology", "it services"]),
  ("ai_ml", ["artificial intelligence", "machine learning", "ai", "ml", "deep learning",
    "neural network", "nlp", "natural language", "computer vision",
    "data science", "predictive", "analytics", "algorithms"]),
  ("cybersecurity", ["security", "cybersecurity", "infosec", "encryption", "firewall",
    "threat", "vulnerability", "penetration", "compliance", "identity",
    "authentication", "authorization", "zero trust"]),
  ("gaming", ["game", "gaming", "esports", "video game", "mobile game",
    "game development", "game studio", "entertainment", "interactive"]),
  ("media", ["media", "entertainment", "streaming", "content", "publishing",
    "news", "broadcast", "television", "film", "music", "podcast",
    "advertising", "adtech", "marketing", "digital media"]),
  ("education", ["education", "edtech", "learning", "school", "university", "college",
    "training", "course", "curriculum", "student", "teacher", "academic",
    "e-learning", "lms", "tutoring"]),
  ("real_estate", ["real estate", "property", "housing", "proptech", "rental",
    "mortgage", "construction", "building", "development", "realty",
    "commercial property", "residential"]),
  ("automotive", ["automotive", "automobile", "car", "vehicle", "electric vehicle", "ev",
    "autonomous", "self-driving", "mobility", "transportation",
    "fleet", "auto", "motor"]),
  ("telecom", ["telecom", "telecommunications", "network", "wireless", "5g",
    "mobile network", "carrier", "broadband", "fiber", "satellite"]),
  ("manufacturing", ["manufacturing", "industrial", "factory", "production", "assembly",
    "supply chain", "logistics", "warehouse", "robotics", "iot"]),
  ("energy", ["energy", "oil", "gas", "renewable", "solar", "wind", "power",
    "utility", "electric", "grid", "clean energy", "sustainability"]),
  ("consulting", ["consulting", "advisory", "strategy", "management consulting",
    "professional services", "business services", "transformation"]),
  ("government", ["government", "federal", "state", "public sector", "defense",
    "military", "civic", "municipal", "agency"]),
  ("nonprofit", ["nonprofit", "non-profit", "ngo", "charity", "foundation",
    "social impact", "humanitarian"]),
  ("travel", ["travel", "hospitality", "hotel", "airline", "tourism",
    "booking", "vacation", "resort", "transportation"]),
  ("food", ["food", "restaurant", "foodtech", "delivery", "catering",
    "beverage", "grocery", "meal", "kitchen"])]

/-- `COMPANY_INDUSTRY_MAP` (industry_classifier.py lines 123-226), in
declaration order; the classifier scans it in this order and the first match
wins. -/
def COMPANY_INDUSTRY_MAP : List (String × String) := [
  ("google", "tech"), ("alphabet", "tech"), ("meta", "tech"),
  ("facebook", "tech"), ("amazon", "ecommerce"), ("apple", "tech"),
  ("microsoft", "tech"), ("netflix", "media"), ("uber", "tech"),
  ("lyft", "tech"), ("airbnb", "travel"), ("twitter", "tech"),
  ("x corp", "tech"), ("linkedin", "tech"), ("salesforce", "saas"),
  ("oracle", "tech"), ("ibm", "tech"), ("intel", "tech"),
  ("nvidia", "tech"), ("amd", "tech"), ("cisco", "tech"),
  ("adobe", "saas"), ("zoom", "saas"), ("slack", "saas"),
  ("atlassian", "saas"), ("shopify", "ecommerce"), ("stripe", "fintech"),
  ("square", "fintech"), ("block", "fintech"), ("paypal", "fintech"),
  ("robinhood", "fintech"), ("coinbase", "fintech"), ("plaid", "fintech"),
  ("chime", "fintech"), ("affirm", "fintech"), ("klarna", "fintech"),
  ("jpmorgan", "fintech"), ("jp morgan", "fintech"), ("goldman sachs", "fintech"),
  ("morgan stanley", "fintech"), ("bank of america", "fintech"),
  ("wells fargo", "fintech"), ("citibank", "fintech"), ("citi", "fintech"),
  ("capital one", "fintech"), ("american express", "fintech"),
  ("amex", "fintech"), ("visa", "fintech"), ("mastercard", "fintech"),
  ("blackrock", "fintech"), ("fidelity", "fintech"), ("vanguard", "fintech"),
  ("charles schwab", "fintech"),
  ("pfizer", "healthcare"), ("johnson & johnson", "healthcare"),
  ("j&j", "healthcare"), ("unitedhealth", "healthcare"),
  ("cvs health", "healthcare"), ("anthem", "healthcare"),
  ("cigna", "healthcare"), ("humana", "healthcare"), ("abbott", "healthcare"),
  ("merck", "healthcare"), ("moderna", "healthcare"), ("biontech", "healthcare"),
  ("mckinsey", "consulting"), ("boston consulting", "consulting"),
  ("bcg", "consulting"), ("bain", "consulting"), ("deloitte", "consulting"),
  ("accenture", "consulting"), ("kpmg", "consulting"), ("ey", "consulting"),
  ("ernst & young", "consulting"), ("pwc", "consulting"),
  ("tesla", "automotive"), ("spacex", "tech"), ("openai", "ai_ml"),
  ("anthropic", "ai_ml"), ("deepmind", "ai_ml"), ("databricks", "ai_ml"),
  ("palantir", "ai_ml"), ("snowflake", "saas"), ("datadog", "saas"),
  ("crowdstrike", "cybersecurity"), ("palo alto networks", "cybersecurity"),
  ("okta", "cybersecurity"), ("doordash", "food"), ("instacart", "ecommerce"),
  ("walmart", "ecommerce"), ("target", "ecommerce"), ("costco", "ecommerce"),
  ("disney", "media"), ("warner bros", "media"), ("spotify", "media"),
  ("tiktok", "media"), ("bytedance", "tech")]

/-- The secondary tech-indicator list of `classify` (industry_classifier.py
lines 303-307). -/
def TECH_INDICATORS : List String :=
  ["software", "developer", "engineer", "programmer", "coding",
   "development", "devops", "backend", "frontend", "fullstack",
   "full-stack", "web", "mobile", "data"]

/-- Keyword score of one industry: each keyword occurring in the combined
text scores 3 if it occurs in the company name, else 2 if in the title, else
1 (industry_classifier.py lines 281-293). -/
def industryScore (combined companyLower titleLower : String)
    (keywords : List String) : Nat :=
  keywords.foldl
    (fun score kw =>
      if pyContains kw combined then
        score + (if pyContains kw companyLower then 3
                 else if pyContains kw titleLower then 2 else 1)
      else score) 0

/-- `max(industry_scores, key=industry_scores.get)`: the first key attaining
the maximal score, in insertion order (strictly greater replaces). -/
def argmaxFirst (l : List (String × Nat)) : Option String :=
  l.foldl
    (fun best kv =>
      match best with
      | none => some kv
      | some b => if kv.2 > b.2 then some kv else some b) none
    |>.map (·.1)

/-- Body of `IndustryClassifier.classify` after the company string has been
lower-cased and stripped (industry_classifier.py lines 267-311). -/
def classifyCore (companyLower company title responsibilities : String) : String :=
  match COMPANY_INDUSTRY_MAP.find?
      (fun kv => pyContains kv.1 companyLower || pyContains companyLower kv.1) with
  | some kv => kv.2
  | none =>
    let combined := pyLower (company ++ " " ++ title ++ " " ++ responsibilities)
    let titleLower := pyLower title
    let scores := INDUSTRY_KEYWORDS.filterMap
      (fun ik =>
        let s := industryScore combined companyLower titleLower ik.2
        if s > 0 then some (ik.1, s) else none)
    match argmaxFirst scores with
    | some ind => ind
    | none =>
      if TECH_INDICATORS.any (fun kw => pyContains kw combined) then "tech"
      else "other"

/-- `IndustryClassifier.classify(company, title, responsibilities)`
(industry_classifier.py lines 250-311): known-company lookup by substring
containment in either direction, then weighted keyword scoring, then the
tech-indicator fallback. -/
def classify (company title responsibilities : String) : String :=
  classifyCore (pyStrip (pyLower company)) company title responsibilities

/-- `IndustryClassifier.format_industry_name` restricted to the tags the
display table covers (industry_classifier.py lines 472-506); every tag
produced by `classify` is in the table. -/
def format_industry_name (code : String) : String :=
  match ([("fintech", "Fintech"), ("healthcare", "Healthcare"),
    ("ecommerce", "E-commerce"), ("saas", "SaaS"), ("tech", "Technology"),
    ("ai_ml", "AI/ML"), ("cybersecurity", "Cybersecurity"),
    ("gaming", "Gaming"), ("media", "Media & Entertainment"),
    ("education", "Education"), ("real_estate", "Real Estate"),
    ("automotive", "Automotive"), ("telecom", "Telecommunications"),
    ("manufacturing", "Manufacturing"), ("energy", "Energy"),
    ("consulting", "Consulting"), ("government", "Government"),
    ("nonprofit", "Nonprofit"), ("travel", "Travel & Hospitality"),
    ("food", "Food & Beverage"), ("other", "Other")].find?
      (fun kv => kv.1 = code)) with
  | some kv => kv.2
  | none => code

/-! ## CareerAnalytics (career_analytics.py) -/

/-- One experience entry as consumed by `CareerAnalytics.analyze`: the dict
produced by `ExperienceExtractor` (`company`, `title`, `start_date`,
`end_date`, `duration_months`, `is_current`, `responsibilities`); `Option`
models absent/None values, with the `.get` defaults applied at use sites. -/
structure Exp where
  company : Option String := none
  title : Option String := none
  start_date : Option String := none
  end_date : Option String := none
  duration_months : Option Int := none
  is_current : Bool := false
  responsibilities : List String := []
deriving Repr, DecidableEq

/-- The sort key of `_sort_experiences.get_start_date` (career_analytics.py
lines 237-251): only `%Y-%m` then `%Y` are tried, anything else (including
missing values) keys as `datetime.min`. -/
def sortKeyDesc (e : Exp) : Date :=
  match e.start_date with
  | none => dateMin
  | some s =>
    match parseYMSep '-' s.toList with
    | some dt => dt
    | none => match parseY s.toList with
      | some dt => dt
      | none => dateMin

/-- The sort key of the ascending sorts inside the analyzers:
`self._parse_date(x.get("start_date")) or datetime.min`. -/
def sortKeyAsc (e : Exp) : Date := (parse_date e.start_date).getD dateMin

/-- Stable descending insertion: `x` goes before the first element with a
strictly smaller key, hence after earlier elements with an equal key. -/
def insertDesc (key : Exp → Date) (x : Exp) : List Exp → List Exp
  | [] => [x]
  | y :: ys => if dateLt (key y) (key x) then x :: y :: ys else y :: insertDesc key x ys

/-- Stable ascending insertion. -/
def insertAsc (key : Exp → Date) (x : Exp) : List Exp → List Exp
  | [] => [x]
  | y :: ys => if dateLt (key x) (key y) then x :: y :: ys else y :: insertAsc key x ys

/-- `sorted(experiences, key=get_start_date, reverse=True)`
(`_sort_experiences`): stable descending sort, so insertion sort. -/
def sort_experiences (l : List Exp) : List Exp :=
  l.foldl (fun acc x => insertDesc sortKeyDesc x acc) []

/-- `sorted(experiences, key=lambda x: self._parse_date(...) or datetime.min)`:
stable ascending sort used by `_analyze_gaps`. -/
def sortStartAsc (l : List Exp) : List Exp :=
  l.foldl (fun acc x => insertAsc sortKeyAsc x acc) []

/-- `GapInfo` (career_analytics.py lines 18-25). -/
structure GapInfo where
  start : String
  «end» : String
  duration_months : Int
  between_companies : String
  severity : String
deriving Repr, DecidableEq

/-- One iteration of the `_analyze_gaps` loop for the adjacent pair
`(current, next_job)` (career_analytics.py lines 299-334): skip if `current`
is the current job or its end date (or the start of `next_job`) is
unparseable; otherwise report a gap exactly when the day difference exceeds
30, with `duration_months = gap_days // 30`. -/
def gapPair (current next_job : Exp) : Option GapInfo :=
  if current.is_current then none
  else
    match parse_date current.end_date with
    | none => none
    | some current_end =>
      match parse_date next_job.start_date with
      | none => none
      | some next_start =>
        let gap_days : Int := (ordinal next_start : Int) - (ordinal current_end : Int)
        if gap_days > 30 then
          let gap_months : Int := gap_days / 30
          some { start := formatYM current_end
                 «end» := formatYM next_start
                 duration_months := gap_months
                 between_companies :=
                   (current.company.getD "Unknown") ++ " and " ++
                   (next_job.company.getD "Unknown")
                 severity :=
                   if gap_months < 3 then "minor"
                   else if gap_months < 6 then "medium"
                   else "significant" }
        else none

/-- The `for i in range(len(sorted_asc) - 1)` loop of `_analyze_gaps` over
consecutive pairs. -/
def gapsLoop : List Exp → List GapInfo
  | a :: b :: rest => (gapPair a b).toList ++ gapsLoop (b :: rest)
  | _ => []

/-- `CareerAnalytics._analyze_gaps` (career_analytics.py lines 286-336). -/
def analyze_gaps (experiences : List Exp) : List GapInfo :=
  if experiences.length < 2 then []
  else gapsLoop (sortStartAsc experiences)

/-- The `employment_gaps` component of `CareerAnalytics.analyze`
(career_analytics.py lines 147-153): the input is first sorted most recent
first, then `_analyze_gaps` is applied. -/
def analyze_employment_gaps (experiences : List Exp) : List GapInfo :=
  analyze_gaps (sort_experiences experiences)

/-- The `has_significant_gaps` component of `CareerAnalytics.analyze`
(career_analytics.py line 154): some gap of at least 6 months. -/
def analyze_has_significant_gaps (experiences : List Exp) : Bool :=
  (analyze_employment_gaps experiences).any (fun g => g.duration_months ≥ 6)

/-- The effective end used in the total-experience loop: `datetime.now()` for
a current entry, else the parsed end date (career_analytics.py lines 266-269). -/
def effectiveEnd (now : Date) (e : Exp) : Option Date :=
  if e.is_current then some now else parse_date e.end_date

/-- One step of the `earliest_start` accumulator:
`if start and (earliest_start is None or start < earliest_start)`. -/
def earlyStep (acc : Option Date) (e : Exp) : Option Date :=
  match parse_date e.start_date with
  | none => acc
  | some s =>
    match acc with
    | none => some s
    | some es => if dateLt s es then some s else acc

/-- The `earliest_start` accumulator of `_calculate_total_experience`
(strictly-earlier updates, first seen wins ties). -/
def earliestStart (l : List Exp) : Option Date :=
  l.foldl earlyStep none

/-- One step of the `latest_end` accumulator:
`if end and (latest_end is None or end > latest_end)`. -/
def lateStep (now : Date) (acc : Option Date) (e : Exp) : Option Date :=
  match effectiveEnd now e with
  | none => acc
  | some en =>
    match acc with
    | none => some en
    | some le => if dateLt le en then some en else acc

/-- The `latest_end` accumulator of `_calculate_total_experience`
(strictly-later updates). -/
def latestEnd (l : List Exp) (now : Date) : Option Date :=
  l.foldl (lateStep now) none

/-- `(latest_end.year - earliest_start.year) * 12 + (latest_end.month -
earliest_start.month)`. -/
def monthsSpan (es le : Date) : Int :=
  12 * ((le.y : Int) - (es.y : Int)) + ((le.m : Int) - (es.m : Int))

/-- `CareerAnalytics._calculate_total_experience` (career_analytics.py lines
255-284), in tenths of a year: the source returns `round(months / 12, 1)`
years, so its value is exactly this integer divided by 10. -/
def total_experience_tenths (l : List Exp) (now : Date) : Int :=
  match earliestStart l with
  | none => 0
  | some es => halfEvenDiv (10 * monthsSpan es ((latestEnd l now).getD now)) 12

/-- Effective duration of one entry in `_analyze_stability` (career_analytics
.py lines 354-366): the stored `duration_months` (default 0), or, when that
is 0, the month difference of the parsed dates with `now` substituted for a
current entry. -/
def effectiveDuration (now : Date) (e : Exp) : Int :=
  let duration := e.duration_months.getD 0
  if duration = 0 then
    match parse_date e.start_date, (if e.is_current then some now else parse_date e.end_date) with
    | some s, some en => 12 * ((en.y : Int) - (s.y : Int)) + ((en.m : Int) - (s.m : Int))
    | _, _ => 0
  else duration

/-- The stability summary of `_analyze_stability` restricted to the fields
the claims are about (shortest/longest tenure records carry the same data in
another shape and are omitted): the unrounded average used for risk
classification, the counts of roles under 1/2 years, the number of entries
with positive effective duration (`len(tenures)`), and the risk label. -/
structure StabilityInfo where
  average : ℚ
  rolesUnder1 : Nat
  rolesUnder2 : Nat
  tenureCount : Nat
  risk : String
deriving Repr, DecidableEq

/-- The risk ladder of `_analyze_stability` (career_analytics.py lines
401-409), a function of `roles_under_1_year`, `len(tenures)` and the
unrounded average tenure. -/
def riskOf (rolesUnder1 tenureCount : Nat) (average : ℚ) : String :=
  if rolesUnder1 ≥ 3 ∨ (tenureCount > 2 ∧ rolesUnder1 ≥ 2) then "high"
  else if rolesUnder1 ≥ 2 ∨ (tenureCount > 3 ∧ average < 18) then "medium"
  else if rolesUnder1 ≥ 1 ∨ average < 24 then "low"
  else "none"

/-- The effective durations that produce tenure records in
`_analyze_stability`: only strictly positive ones. -/
def positiveDurations (l : List Exp) (now : Date) : List Int :=
  (l.map (effectiveDuration now)).filter (fun dur => dur > 0)

/-- `CareerAnalytics._analyze_stability` (career_analytics.py lines 338-418):
entries with non-positive effective duration contribute no tenure record and
are excluded from every count and from the average; with no tenures at all
the risk is "none". -/
def analyze_stability (l : List Exp) (now : Date) : StabilityInfo :=
  if (positiveDurations l now).isEmpty then ⟨0, 0, 0, 0, "none"⟩
  else
    ⟨((positiveDurations l now).sum : ℚ) / ((positiveDurations l now).length : ℚ),
     ((positiveDurations l now).filter (fun dur => dur < 12)).length,
     ((positiveDurations l now).filter (fun dur => dur < 24)).length,
     (positiveDurations l now).length,
     riskOf ((positiveDurations l now).filter (fun dur => dur < 12)).length
       (positiveDurations l now).length
       (((positiveDurations l now).sum : ℚ) / ((positiveDurations l now).length : ℚ))⟩

/-! ## The answer-depth heuristic (advanced_engine.py lines 438-482) -/

/-- The specificity indicator words of `_assess_answer_depth`. -/
def SPECIFIC_WORDS : List String := ["specifically", "exactly", "precisely", "actually"]

/-- The vague-language phrases of `_assess_answer_depth`. -/
def VAGUE_PHRASES : List String :=
  ["kind of", "sort of", "basically", "you know", "stuff", "things", "etc", "various"]

/-- Result of the depth heuristic, restricted to the fields the claims are
about (the dict also carries has_metrics / vague_language /
personal_contribution_clear, directly derived flags); `score20` is the depth
score in exact twentieths (every contribution of the float score is a
multiple of 1/20: `word_count/20`, integer bonuses and penalties), so the
float thresholds 7/4/2 become 140/80/40. -/
structure DepthAssessment where
  depth : String
  score20 : Int
  word_count : Nat
  needs_follow_up : Bool
deriving Repr, DecidableEq

/-- The depth score of `_assess_answer_depth` in twentieths: capped length
contribution (`min(word_count / 20, 5)`), capped metrics bonus, specificity
bonus, vagueness penalty, and the we-without-I penalty. -/
def depth_score20 (response : String) : Int :=
  (min (pyWordCount response) 100 : Nat)
    + 20 * (min (digitCount response) 3 : Nat)
    + 20 * ((SPECIFIC_WORDS.filter (fun w => pyContains w (pyLower response))).length : Int)
    - 20 * ((VAGUE_PHRASES.filter (fun p => pyContains p (pyLower response))).length : Int)
    - (if pyCount " we " (pyLower response) > pyCount " i " (pyLower response) ∧
          pyCount " i " (pyLower response) < 2 then 40 else 0)

/-- The depth buckets of `_assess_answer_depth` over the score in twentieths
(the float thresholds 7, 4, 2 are 140, 80, 40 twentieths). -/
def depth_bucket (score20 : Int) : String :=
  if score20 ≥ 140 then "deep"
  else if score20 ≥ 80 then "adequate"
  else if score20 ≥ 40 then "surface"
  else "shallow"

/-- `AdvancedInterviewEngine._assess_answer_depth` (advanced_engine.py lines
438-482): length, digit and specificity bonuses, vagueness and
we-without-I penalties, bucketed into shallow/surface/adequate/deep;
`needs_follow_up` iff shallow or surface. -/
def assess_answer_depth (response : String) : DepthAssessment :=
  { depth := depth_bucket (depth_score20 response)
    score20 := depth_score20 response
    word_count := pyWordCount response
    needs_follow_up := depth_bucket (depth_score20 response) = "shallow" ∨
      depth_bucket (depth_score20 response) = "surface" }

/-! ## Aggregate scoring and the report recommendation (interview.py) -/

/-- An evaluation dict as stored in `session["evaluations"]`, restricted to
the fields the aggregation and the state machine read: the `scores` sub-dict
(an association list; `none` models a missing key, `some []` an empty dict —
both falsy) and the `follow_up_recommended` flag. -/
structure Evaluation where
  scores : Option (List (String × ℚ)) := none
  follow_up_recommended : Bool := false
deriving Repr, DecidableEq

/-- Dict lookup in a scores dict. -/
def lookupScore (scores : List (String × ℚ)) (key : String) : Option ℚ :=
  (scores.find? (fun kv => kv.1 = key)).map (·.2)

/-- `score_keys` of `calculate_aggregate_scores` (interview.py lines 567-568). -/
def SCORE_KEYS : List String :=
  ["content", "communication", "analytical", "technical_depth", "star_method", "authenticity"]

/-- Truthiness of `e.get("scores")`. -/
def scoresTruthy (e : Evaluation) : Bool :=
  match e.scores with
  | some (_ :: _) => true
  | _ => false

/-- The per-key score list of `calculate_aggregate_scores`:
`[e.get("scores", {}).get(key, 0) for e in evaluations if e.get("scores")]`. -/
def aggScoresFor (evaluations : List Evaluation) (key : String) : List ℚ :=
  (evaluations.filter scoresTruthy).map
    (fun e => (lookupScore (e.scores.getD []) key).getD 0)

/-- One aggregate entry: `round(sum(scores) / len(scores) * 10, 1)`. -/
def aggEntryFor (evaluations : List Evaluation) (key : String) : String × ℚ :=
  (key, round1 (((aggScoresFor evaluations key).sum /
    ((aggScoresFor evaluations key).length : ℚ)) * 10))

/-- The `aggregates` dict of `calculate_aggregate_scores` before the overall
entry, built key by key in `score_keys` order. -/
def aggsOf (evaluations : List Evaluation) : List (String × ℚ) :=
  SCORE_KEYS.foldl
    (fun acc key =>
      if (aggScoresFor evaluations key).isEmpty then acc
      else acc ++ [aggEntryFor evaluations key]) []

/-- `calculate_aggregate_scores` (interview.py lines 561-581): for each fixed
score key, the mean over evaluations with a truthy `scores` dict of that key
(defaulting to 0 when the key is absent), scaled to 0-100 and rounded to one
decimal; then an `overall` entry, the rounded mean of the per-key values. -/
def calculate_aggregate_scores (evaluations : List Evaluation) : List (String × ℚ) :=
  if evaluations.isEmpty then []
  else if (aggsOf evaluations).isEmpty then aggsOf evaluations
  else aggsOf evaluations ++
    [("overall", round1 (((aggsOf evaluations).map (·.2)).sum /
      ((aggsOf evaluations).length : ℚ)))]

/-- The recommendation banding of `get_interview_report` (interview.py lines
602-610). -/
def recommendation_of (overall : ℚ) : String :=
  if overall ≥ 85 then "Strong Hire"
  else if overall ≥ 70 then "Hire"
  else if overall ≥ 50 then "Maybe"
  else "No Hire"

/-- `overall_score` of `get_interview_report` (interview.py lines 598-599):
the `overall` aggregate, defaulting to 0. -/
def report_overall (evaluations : List Evaluation) : ℚ :=
  (((calculate_aggregate_scores evaluations).find? (fun kv => kv.1 = "overall")).map (·.2)).getD 0

/-- The hiring recommendation of `get_interview_report`. -/
def report_recommendation (evaluations : List Evaluation) : String :=
  recommendation_of (report_overall evaluations)

/-! ## The interview session state machine (interview.py)

`submit_response` (interview.py lines 147-346) is modelled as a transition
function on the session record. The calls to external generation/evaluation
capabilities are oracle inputs (`SubmitInput`): the evaluation dict produced
for this response, and the text of the generated follow-up / next question.
Per the source, every follow-up question produced by
`AdvancedInterviewEngine.generate_follow_up` (advanced_engine.py lines
317-325 and its fallback, lines 908-923) and the in-line follow-up dict of
the basic path (interview.py lines 272-279) carry `is_follow_up: True`,
while no question returned by `generate_next_question` or the session-start
path carries an `is_follow_up` key (so `q.get("is_follow_up", False)` is
`False` for them); the transition therefore tags appended questions
accordingly. -/

/-- A question dict in `session["questions"]`, restricted to the fields the
state machine reads. Missing `is_follow_up` keys read as `False`. -/
structure Question where
  question : String := ""
  question_type : String := ""
  topic : String := ""
  is_follow_up : Bool := false
deriving Repr, DecidableEq

/-- The `InterviewQuestionResponse` payload of a submission result. -/
structure QuestionOut where
  question_number : Nat
  total_questions : Nat
  question : String
  question_type : String
  topic : String
deriving Repr, DecidableEq

/-- The `InterviewResponseResult` fields the claims are about. -/
structure SubmitResult where
  is_complete : Bool
  next_question : Option QuestionOut
deriving Repr, DecidableEq

/-- An interview session record (interview.py lines 87-105), restricted to
the state-machine fields. -/
structure Session where
  questions : List Question
  responses : List String
  evaluations : List Evaluation
  current_question_index : Nat
  current_follow_up_count : Nat
  status : String
  num_questions : Nat
  is_advanced : Bool
deriving Repr, DecidableEq

/-- The oracle inputs of one submission: the candidate response, the
evaluation produced for it, and the payloads of the externally generated
follow-up / next-main question. -/
structure SubmitInput where
  response : String
  evaluation : Evaluation
  follow_up_text : String := ""
  follow_up_topic : String := ""
  next_text : String := ""
  next_type : String := ""
  next_topic : String := ""
deriving Repr, DecidableEq

/-- `len([q for q in session["questions"] if not q.get("is_follow_up", False)])`. -/
def mainQuestionCount (qs : List Question) : Nat :=
  (qs.filter (fun q => !q.is_follow_up)).length

/-- Modelled from the spec: the basic engine depth evaluation
(`InterviewEngine.evaluate_answer_depth`; the file
`src/backend/app/services/interview/engine.py` is not in the source tree).
Spec section 4.6 step 1 describes it as the word-count / digits /
specificity / we-without-I scalar with fixed thresholds — the same heuristic
the advanced engine implements in source as `_assess_answer_depth`. -/
def evaluate_answer_depth (response : String) : DepthAssessment :=
  assess_answer_depth response

/-- The `needs_follow_up` flag of `submit_response` (interview.py lines
221-227): for the advanced engine only the evaluator recommendation; for the
basic engine the depth heuristic or the evaluator recommendation. -/
def needs_follow_up_of (s : Session) (inp : SubmitInput) : Bool :=
  if s.is_advanced then inp.evaluation.follow_up_recommended
  else (evaluate_answer_depth inp.response).needs_follow_up ||
    inp.evaluation.follow_up_recommended

/-- The `should_follow_up` flag of `submit_response` (interview.py lines
229-233), given the current question. -/
def should_follow_up_with (s : Session) (inp : SubmitInput) (cq : Question) : Bool :=
  needs_follow_up_of s inp && decide (s.current_follow_up_count < 1) && !cq.is_follow_up

/-- The follow-up question record appended by the follow-up branch
(tagged `is_follow_up := true`, per the engine sources cited above). -/
def fuQuestion (inp : SubmitInput) : Question :=
  { question := inp.follow_up_text, question_type := "follow_up",
    topic := inp.follow_up_topic, is_follow_up := true }

/-- The next main question record appended by the advance branch (the
generators emit no `is_follow_up` key, which reads as `False`). -/
def nextQuestion (inp : SubmitInput) : Question :=
  { question := inp.next_text, question_type := inp.next_type,
    topic := inp.next_topic, is_follow_up := false }

/-- `submit_response` (interview.py lines 147-346) as a transition function:
`none` models the 400/404/IndexError rejection paths (not in progress, bad
question index); otherwise the response and evaluation are appended, and the
submission terminates the session, appends a follow-up, or advances to the
next main question. `main_question_count` is evaluated on the pre-append
questions list, exactly as at interview.py line 236. -/
def submit_response (s : Session) (inp : SubmitInput) :
    Option (Session × SubmitResult) :=
  if s.status ≠ "in_progress" then none
  else
    match s.questions[s.current_question_index]? with
    | none => none
    | some current_question =>
      if !(should_follow_up_with s inp current_question) ∧
          mainQuestionCount s.questions ≥ s.num_questions then
        some ({ s with responses := s.responses ++ [inp.response]
                       evaluations := s.evaluations ++ [inp.evaluation]
                       status := "completed" },
              { is_complete := true, next_question := none })
      else if should_follow_up_with s inp current_question then
        some ({ s with responses := s.responses ++ [inp.response]
                       evaluations := s.evaluations ++ [inp.evaluation]
                       questions := s.questions ++ [fuQuestion inp]
                       current_question_index := s.current_question_index + 1
                       current_follow_up_count := s.current_follow_up_count + 1 },
              { is_complete := false,
                next_question := some
                  { question_number := mainQuestionCount s.questions,
                    total_questions := s.num_questions,
                    question := inp.follow_up_text, question_type := "follow_up",
                    topic := inp.follow_up_topic } })
      else
        some ({ s with responses := s.responses ++ [inp.response]
                       evaluations := s.evaluations ++ [inp.evaluation]
                       questions := s.questions ++ [nextQuestion inp]
                       current_question_index := s.current_question_index + 1
                       current_follow_up_count := 0 },
              { is_complete := false,
                next_question := some
                  { question_number := mainQuestionCount (s.questions ++ [nextQuestion inp]),
                    total_questions := s.num_questions,
                    question := inp.next_text, question_type := inp.next_type,
                    topic := inp.next_topic } })

/-- Session creation in `start_interview` (interview.py lines 87-124): one
question stored, counters zeroed, status in progress. -/
def init_session (first_question : Question) (num_questions : Nat)
    (is_advanced : Bool) : Session :=
  { questions := [first_question], responses := [], evaluations := [],
    current_question_index := 0, current_follow_up_count := 0,
    status := "in_progress", num_questions := num_questions,
    is_advanced := is_advanced }

/-- `end_interview` (interview.py lines 465-492): force status to completed. -/
def end_interview (s : Session) : Session := { s with status := "completed" }

/-- The question number displayed by `get_current_question` (interview.py
lines 450-457): the count of non-follow-up questions at indices up to and
including the current one. -/
def current_display_number (s : Session) : Nat :=
  mainQuestionCount (s.questions.take (s.current_question_index + 1))

/-- Sessions reachable through the API: created by `start_interview` (the
first question comes from the question generators, which never emit an
`is_follow_up` key), then transformed by `submit_response` and
`end_interview`. -/
inductive Reachable : Session → Prop where
  | init : ∀ (q : Question) (n : Nat) (adv : Bool), q.is_follow_up = false →
      Reachable (init_session q n adv)
  | step : ∀ s inp s' r, Reachable s → submit_response s inp = some (s', r) →
      Reachable s'
  | endEarly : ∀ s, Reachable s → Reachable (end_interview s)

/-- No two adjacent questions of the list are both follow-ups. -/
def noConsecFollowUps (qs : List Question) : Prop :=
  List.Chain' (fun a b => ¬(a.is_follow_up = true ∧ b.is_follow_up = true)) qs

/-- The structural session invariants maintained by every reachable state:
the questions list has no two adjacent follow-ups, while in progress the
current question index points at the last question, responses and
evaluations stay equally long, and the questions list is never empty. -/
theorem session_invariants (s : Session) (h : Reachable s) :
    noConsecFollowUps s.questions ∧
    (s.status = "in_progress" → s.current_question_index + 1 = s.questions.length) ∧
    s.responses.length = s.evaluations.length ∧
    s.questions ≠ [] := by
  induction h with
  | init q n adv hq =>
    exact ⟨List.chain'_singleton q, fun _ => rfl, rfl, by simp [init_session]⟩
  | endEarly t ht ih =>
    refine ⟨ih.1, ?_, ih.2.2⟩
    intro hst
    simp [end_interview] at hst
  | step t inp s' r ht hstep ih =>
    unfold submit_response at hstep
    split at hstep
    · exact absurd hstep (by simp)
    next hstatus =>
    have hprog : t.status = "in_progress" := by
      by_contra hne
      exact hstatus hne
    split at hstep
    · exact absurd hstep (by simp)
    next current_question hcq =>
    have hlen : t.current_question_index + 1 = t.questions.length := ih.2.1 hprog
    have hlast : t.questions.getLast? = some current_question := by
      rw [List.getLast?_eq_getElem?]
      have hidx : t.questions.length - 1 = t.current_question_index := by omega
      rw [hidx]
      exact hcq
    split at hstep
    · -- termination branch: questions unchanged, status completed
      injection hstep with hpair
      rw [Prod.mk.injEq] at hpair
      obtain ⟨hs', -⟩ := hpair
      subst hs'
      refine ⟨ih.1, ?_, by simpa using ih.2.2.1, ih.2.2.2⟩
      intro hst
      simp at hst
    next hnotterm =>
    split at hstep
    next hfu =>
      -- follow-up branch
      injection hstep with hpair
      rw [Prod.mk.injEq] at hpair
      obtain ⟨hs', -⟩ := hpair
      subst hs'
      have hcqfu : current_question.is_follow_up = false := by
        unfold should_follow_up_with at hfu
        simp only [Bool.and_eq_true, Bool.not_eq_true'] at hfu
        exact hfu.2
      refine ⟨?_, ?_, by simpa using ih.2.2.1, by simp⟩
      · refine List.chain'_append.mpr ⟨ih.1, List.chain'_singleton _, ?_⟩
        intro x hx y hy
        simp only [List.head?_cons, Option.mem_def, Option.some.injEq] at hy
        rw [hlast] at hx
        simp only [Option.mem_def, Option.some.injEq] at hx
        subst hx
        subst hy
        intro hcontra
        rw [hcqfu] at hcontra
        exact absurd hcontra.1 (by simp)
      · intro _
        simp only [List.length_append, List.length_cons, List.length_nil]
        omega
    next hnofu =>
      -- advance branch
      injection hstep with hpair
      rw [Prod.mk.injEq] at hpair
      obtain ⟨hs', -⟩ := hpair
      subst hs'
      refine ⟨?_, ?_, by simpa using ih.2.2.1, by simp⟩
      · refine List.chain'_append.mpr ⟨ih.1, List.chain'_singleton _, ?_⟩
        intro x hx y hy
        simp only [List.head?_cons, Option.mem_def, Option.some.injEq] at hy
        subst hy
        intro hcontra
        have : (nextQuestion inp).is_follow_up = false := by simp [nextQuestion]
        rw [this] at hcontra
        exact absurd hcontra.2 (by simp)
      · intro _
        simp only [List.length_append, List.length_cons, List.length_nil]
        omega

/-! ## Fixture data for witnesses -/

/-- A first question as produced at session start (no follow-up tag). -/
def demoQ : Question :=
  { question := "Tell me about your background", question_type := "behavioral",
    topic := "intro" }

/-- A five-question advanced session as `start_interview` creates it. -/
def demoSession : Session := init_session demoQ 5 true

/-- A submission whose evaluation recommends a follow-up. -/
def demoInputFU : SubmitInput :=
  { response := "We did good work there",
    evaluation := { scores := some [("content", 6)], follow_up_recommended := true },
    follow_up_text := "What was your own contribution?", follow_up_topic := "intro",
    next_text := "Describe a recent project", next_type := "technical",
    next_topic := "projects" }

/-- A submission that triggers no follow-up. -/
def demoInputAdv : SubmitInput :=
  { response := "I designed the service and led the rollout to production",
    evaluation := { scores := some [("content", 8)], follow_up_recommended := false },
    follow_up_text := "Could you elaborate?", follow_up_topic := "detail",
    next_text := "What challenges did you face?", next_type := "behavioral",
    next_topic := "challenges" }

/-- Apply one no-follow-up submission, keeping the state on failure. -/
def demoStep (s : Session) : Session :=
  ((submit_response s demoInputAdv).getD (s, { is_complete := false, next_question := none })).1

/-- The session after four advancing submissions: five main questions asked,
all in progress. -/
def demoS4 : Session := demoStep (demoStep (demoStep (demoStep demoSession)))

/-- State and result of the fifth (terminating) submission. -/
def demoFinal : Session × SubmitResult :=
  (submit_response demoS4 demoInputAdv).getD
    (demoS4, { is_complete := false, next_question := none })

/-- State and result of a follow-up-triggering first submission. -/
def demoAfterFU : Session × SubmitResult :=
  (submit_response demoSession demoInputFU).getD
    (demoSession, { is_complete := false, next_question := none })

/-! ## C1 -/

/-- C1: in every reachable interview session the question list never holds
two consecutive follow-ups (hence each main question is followed by at most
one follow-up question, since the question after a follow-up is never a
follow-up), and a submission appends a follow-up-tagged question only when
the just-answered current question was itself not a follow-up and the
session's `current_follow_up_count` is below 1. -/
theorem C1_follow_up_cap :
    (∀ s : Session, Reachable s → noConsecFollowUps s.questions) ∧
    (∀ (s : Session) (inp : SubmitInput) (s' : Session) (r : SubmitResult)
        (q : Question),
      submit_response s inp = some (s', r) →
      s'.questions = s.questions ++ [q] → q.is_follow_up = true →
      ∃ cq, s.questions[s.current_question_index]? = some cq ∧
        cq.is_follow_up = false ∧ s.current_follow_up_count < 1) := by
  constructor
  · intro s hs
    exact (session_invariants s hs).1
  · intro s inp s' r q hstep happ hq
    unfold submit_response at hstep
    split at hstep
    · exact absurd hstep (by simp)
    next hstatus =>
    split at hstep
    · exact absurd hstep (by simp)
    next cq hcq =>
    refine ⟨cq, hcq, ?_⟩
    split at hstep
    · -- termination branch leaves the question list unchanged
      injection hstep with hpair
      rw [Prod.mk.injEq] at hpair
      obtain ⟨hs', -⟩ := hpair
      subst hs'
      simp only at happ
      have := congrArg List.length happ
      simp at this
    next hnotterm =>
    split at hstep
    next hfu =>
      unfold should_follow_up_with at hfu
      simp only [Bool.and_eq_true, Bool.not_eq_true', decide_eq_true_eq] at hfu
      exact ⟨hfu.2, hfu.1.2⟩
    next hnofu =>
      -- advance branch appends a non-follow-up question
      injection hstep with hpair
      rw [Prod.mk.injEq] at hpair
      obtain ⟨hs', -⟩ := hpair
      subst hs'
      simp only at happ
      have hqe : q = nextQuestion inp := by
        have h2 := List.append_cancel_left happ
        have h3 : nextQuestion inp = q := by simpa using h2
        exact h3.symm
      rw [hqe] at hq
      simp [nextQuestion] at hq

/-- Witness for C1 at concrete inputs: the freshly started session satisfies
the chain invariant, and the concrete follow-up-appending submission
satisfies the append conditions. -/
theorem C1_follow_up_cap_witness :
    noConsecFollowUps demoSession.questions ∧
    ∃ cq, demoSession.questions[demoSession.current_question_index]? = some cq ∧
      cq.is_follow_up = false ∧ demoSession.current_follow_up_count < 1 := by
  constructor
  · exact C1_follow_up_cap.1 demoSession (Reachable.init demoQ 5 true rfl)
  · exact C1_follow_up_cap.2 demoSession demoInputFU demoAfterFU.1 demoAfterFU.2
      (fuQuestion demoInputFU) rfl rfl rfl

/-! ## C2 -/

/-- C2: in an in-progress session, when a submission does not trigger a
follow-up (`should_follow_up` is false) and the count of asked questions
with `is_follow_up` false has reached the configured `num_questions`, the
submission sets the session status to "completed" and returns a final result
whose `next_question` is null. -/
theorem C2_termination (s : Session) (inp : SubmitInput) (s' : Session)
    (r : SubmitResult) (cq : Question)
    (hstep : submit_response s inp = some (s', r))
    (hcq : s.questions[s.current_question_index]? = some cq)
    (hnofu : should_follow_up_with s inp cq = false)
    (hcount : s.num_questions ≤ mainQuestionCount s.questions) :
    s'.status = "completed" ∧ r.next_question = none ∧ r.is_complete = true := by
  unfold submit_response at hstep
  split at hstep
  · exact absurd hstep (by simp)
  next hstatus =>
  split at hstep
  · exact absurd hstep (by simp)
  next cq2 hcq2 =>
  have hcqe : cq2 = cq := by
    rw [hcq] at hcq2
    exact (Option.some.inj hcq2).symm
  subst hcqe
  split at hstep
  · injection hstep with hpair
    rw [Prod.mk.injEq] at hpair
    obtain ⟨hs', hr⟩ := hpair
    subst hs'
    subst hr
    exact ⟨rfl, rfl, rfl⟩
  next hnotterm =>
    exact absurd ⟨by rw [hnofu]; rfl, hcount⟩ hnotterm

/-- Witness for C2: scenario E. In the concrete advanced session with
`num_questions = 5`, after four advancing submissions the fifth response
(triggering no follow-up) completes the session with a null next question. -/
theorem C2_termination_witness :
    demoFinal.1.status = "completed" ∧ demoFinal.2.next_question = none ∧
    demoFinal.2.is_complete = true :=
  C2_termination demoS4 demoInputAdv demoFinal.1 demoFinal.2
    (nextQuestion demoInputAdv) rfl rfl rfl (by decide)

/-! ## C7 -/

/-- C7: in every reachable session the responses and evaluations lists have
equal length, and every successful submission (follow-up, advance, or
termination alike) appends exactly one response and exactly one evaluation. -/
theorem C7_history_lengths :
    (∀ s : Session, Reachable s → s.responses.length = s.evaluations.length) ∧
    (∀ (s : Session) (inp : SubmitInput) (s' : Session) (r : SubmitResult),
      submit_response s inp = some (s', r) →
      s'.responses.length = s.responses.length + 1 ∧
      s'.evaluations.length = s.evaluations.length + 1) := by
  constructor
  · intro s hs
    exact (session_invariants s hs).2.2.1
  · intro s inp s' r hstep
    unfold submit_response at hstep
    split at hstep
    · exact absurd hstep (by simp)
    split at hstep
    · exact absurd hstep (by simp)
    split at hstep
    · injection hstep with hpair
      rw [Prod.mk.injEq] at hpair
      obtain ⟨hs', -⟩ := hpair
      subst hs'
      constructor <;> simp
    · split at hstep <;>
      · injection hstep with hpair
        rw [Prod.mk.injEq] at hpair
        obtain ⟨hs', -⟩ := hpair
        subst hs'
        constructor <;> simp

/-- Witness for C7 at concrete inputs: the invariant on a started session
and the exact one-element growth across a concrete submission. -/
theorem C7_history_lengths_witness :
    demoSession.responses.length = demoSession.evaluations.length ∧
    demoAfterFU.1.responses.length = demoSession.responses.length + 1 ∧
    demoAfterFU.1.evaluations.length = demoSession.evaluations.length + 1 :=
  ⟨C7_history_lengths.1 demoSession (Reachable.init demoQ 5 true rfl),
   C7_history_lengths.2 demoSession demoInputFU demoAfterFU.1 demoAfterFU.2 rfl⟩

/-! ## C9 -/

/-- Bound on the depth score of a 5-word, digit-free response with no
specificity indicator: only the length contribution remains positive. -/
theorem depth_score20_le_five (response : String)
    (hwc : pyWordCount response = 5) (hdig : digitCount response = 0)
    (hspec : ∀ w ∈ SPECIFIC_WORDS, pyContains w (pyLower response) = false) :
    depth_score20 response ≤ 5 := by
  have hf : SPECIFIC_WORDS.filter (fun w => pyContains w (pyLower response)) = [] := by
    rw [List.filter_eq_nil_iff]
    intro w hw
    rw [hspec w hw]
    simp
  unfold depth_score20
  rw [hwc, hdig, hf]
  norm_num
  split <;> omega

/-- Scores below the surface threshold classify as shallow. -/
theorem depth_bucket_of_lt_forty (k : Int) (h : k < 40) :
    depth_bucket k = "shallow" := by
  unfold depth_bucket
  rw [if_neg (by omega), if_neg (by omega), if_neg (by omega)]

/-- C9 (amended): a 5-word response with no digits and none of the
specificity indicator words is classified "shallow" with `needs_follow_up`
true by the depth heuristic; and submitting such a response in a basic-path
session whose current question is a main question and whose
`current_follow_up_count` is below 1 makes the engine return a follow-up
question whose displayed `question_number` equals the display number of the
just-answered main question (as `get_current_question` computes it). -/
theorem C9_shallow_follow_up :
    (∀ response : String, pyWordCount response = 5 → digitCount response = 0 →
      (∀ w ∈ SPECIFIC_WORDS, pyContains w (pyLower response) = false) →
      (assess_answer_depth response).depth = "shallow" ∧
      (assess_answer_depth response).needs_follow_up = true) ∧
    (∀ (s : Session) (inp : SubmitInput) (s' : Session) (r : SubmitResult)
        (cq : Question),
      Reachable s → s.is_advanced = false →
      submit_response s inp = some (s', r) →
      s.questions[s.current_question_index]? = some cq →
      cq.is_follow_up = false → s.current_follow_up_count < 1 →
      pyWordCount inp.response = 5 → digitCount inp.response = 0 →
      (∀ w ∈ SPECIFIC_WORDS, pyContains w (pyLower inp.response) = false) →
      r.next_question = some
        { question_number := current_display_number s,
          total_questions := s.num_questions,
          question := inp.follow_up_text, question_type := "follow_up",
          topic := inp.follow_up_topic } ∧
      s'.questions = s.questions ++ [fuQuestion inp]) := by
  have hshallow : ∀ response : String, pyWordCount response = 5 →
      digitCount response = 0 →
      (∀ w ∈ SPECIFIC_WORDS, pyContains w (pyLower response) = false) →
      (assess_answer_depth response).depth = "shallow" ∧
      (assess_answer_depth response).needs_follow_up = true := by
    intro response hwc hdig hspec
    have hb : depth_bucket (depth_score20 response) = "shallow" :=
      depth_bucket_of_lt_forty _
        (lt_of_le_of_lt (depth_score20_le_five response hwc hdig hspec) (by omega))
    constructor
    · simp [assess_answer_depth, hb]
    · simp [assess_answer_depth, hb]
  refine ⟨hshallow, ?_⟩
  intro s inp s' r cq hreach hbasic hstep hcq hcqfu hcount hwc hdig hspec
  have hneeds : needs_follow_up_of s inp = true := by
    have h2 := (hshallow inp.response hwc hdig hspec).2
    simp [needs_follow_up_of, evaluate_answer_depth, hbasic, h2]
  have hshould : should_follow_up_with s inp cq = true := by
    unfold should_follow_up_with
    rw [hneeds, hcqfu]
    simp [hcount]
  have hdisp : current_display_number s = mainQuestionCount s.questions := by
    unfold current_display_number
    have hlen := (session_invariants s hreach).2.1
    unfold submit_response at hstep
    split at hstep
    · exact absurd hstep (by simp)
    next hstatus =>
      have hprog : s.status = "in_progress" := by
        by_contra hne
        exact hstatus hne
      rw [hlen hprog, List.take_length]
  unfold submit_response at hstep
  split at hstep
  · exact absurd hstep (by simp)
  split at hstep
  · exact absurd hstep (by simp)
  next cq2 hcq2 =>
  have hcqe : cq2 = cq := by
    rw [hcq] at hcq2
    exact (Option.some.inj hcq2).symm
  subst hcqe
  split at hstep
  next hterm =>
    rw [hshould] at hterm
    exact absurd hterm.1 (by simp)
  next hnotterm =>
    injection hstep with hpair
    rw [Prod.mk.injEq] at hpair
    obtain ⟨hs', hr⟩ := hpair
    subst hs'
    subst hr
    exact ⟨by rw [hdisp], rfl⟩

/-- Counterexample to C9 as stated: a 5-word digit-free response made of the
four specificity indicator words scores 4.25 and is classified "adequate"
with `needs_follow_up` false, not "shallow". -/
theorem C9_counterexample :
    pyWordCount "specifically exactly precisely actually yes" = 5 ∧
    digitCount "specifically exactly precisely actually yes" = 0 ∧
    (assess_answer_depth "specifically exactly precisely actually yes").depth
      = "adequate" ∧
    (assess_answer_depth "specifically exactly precisely actually yes").needs_follow_up
      = false := by
  refine ⟨?_, ?_, ?_, ?_⟩ <;> rfl

/-- A basic-engine session fixture. -/
def demoBasicSession : Session := init_session demoQ 5 false

/-- A 5-word, digit-free, non-specific submission for the basic path; its
evaluation does not itself recommend a follow-up. -/
def demoInputBasic : SubmitInput :=
  { response := "We did good work there",
    evaluation := { scores := some [("content", 4)], follow_up_recommended := false },
    follow_up_text := "What exactly was your own role in it?",
    follow_up_topic := "intro",
    next_text := "Walk me through a project", next_type := "technical",
    next_topic := "projects" }

/-- State and result of the shallow-answer submission on the basic path. -/
def demoAfterBasic : Session × SubmitResult :=
  (submit_response demoBasicSession demoInputBasic).getD
    (demoBasicSession, { is_complete := false, next_question := none })

/-- Witness for C9 at a concrete 5-word shallow response. -/
theorem C9_shallow_follow_up_witness :
    ((assess_answer_depth "We did good work there").depth = "shallow" ∧
      (assess_answer_depth "We did good work there").needs_follow_up = true) ∧
    demoAfterBasic.2.next_question = some
      { question_number := current_display_number demoBasicSession,
        total_questions := demoBasicSession.num_questions,
        question := demoInputBasic.follow_up_text, question_type := "follow_up",
        topic := demoInputBasic.follow_up_topic } ∧
    demoAfterBasic.1.questions = demoBasicSession.questions ++ [fuQuestion demoInputBasic] :=
  ⟨C9_shallow_follow_up.1 "We did good work there" (by decide) (by decide) (by decide),
   C9_shallow_follow_up.2 demoBasicSession demoInputBasic demoAfterBasic.1
     demoAfterBasic.2 demoQ (Reachable.init demoQ 5 false rfl) rfl (by rfl)
     (by rfl) rfl (by decide) (by decide) (by decide) (by decide)⟩

/-! ## C10 -/

/-- Lower-casing leaves whitespace characters unchanged. -/
theorem pyLowerChar_of_space (c : Char) (h : pyIsSpace c = true) :
    pyLowerChar c = c := by
  simp only [pyIsSpace, Bool.decide_or, Bool.or_eq_true, decide_eq_true_eq] at h
  rcases h with h | h | h | h | h | h <;> subst h <;> decide

/-- Stripping a whitespace-only character list yields the empty list. -/
theorem pyStripList_of_spaces (l : List Char) (h : ∀ c ∈ l, pyIsSpace c = true) :
    pyStripList l = [] := by
  unfold pyStripList
  rw [List.dropWhile_eq_nil_iff.mpr h]
  simp

/-- With an empty company key the very first entry of
`COMPANY_INDUSTRY_MAP` ("google" → "tech") matches (the empty string is a
substring of every name), so `classify` answers "tech" before any keyword
scoring. -/
theorem classifyCore_empty_company (company title responsibilities : String) :
    classifyCore "" company title responsibilities = "tech" := rfl

/-- C10: for every title and responsibilities text, `classify` called with
an empty or whitespace-only company string returns "tech": the stripped
lower-cased company is empty, the substring test against the first table
entry ("google" → "tech") succeeds in the `company_lower in known_company`
direction, and the keyword scoring and tech fallback are never reached. -/
theorem C10_empty_company_tech (company title responsibilities : String)
    (h : ∀ c ∈ company.toList, pyIsSpace c = true) :
    classify company title responsibilities = "tech" := by
  have hlower : ∀ c ∈ (pyLower company).toList, pyIsSpace c = true := by
    intro c hc
    simp only [pyLower, String.toList, pyLowerList] at hc
    have hc2 := hc
    rw [List.mem_map] at hc2
    obtain ⟨a, ha, hac⟩ := hc2
    have hsp := h a ha
    rw [← hac, pyLowerChar_of_space a hsp]
    exact hsp
  have hstrip : pyStrip (pyLower company) = "" := by
    unfold pyStrip
    rw [pyStripList_of_spaces _ hlower]
  unfold classify
  rw [hstrip]
  exact classifyCore_empty_company company title responsibilities

/-- Witness for C10 at the empty and a whitespace-only company string. -/
theorem C10_empty_company_tech_witness :
    classify "" "Software Engineer" "built data pipelines" = "tech" ∧
    classify "   " "Nurse" "patient care" = "tech" :=
  ⟨C10_empty_company_tech "" "Software Engineer" "built data pipelines" (by decide),
   C10_empty_company_tech "   " "Nurse" "patient care" (by decide)⟩

/-! ## C4 -/

/-- Scenario A, JobA: 2019-01 to 2019-11. -/
def scenarioJobA : Exp :=
  { company := some "JobA", title := some "Engineer",
    start_date := some "2019-01", end_date := some "2019-11" }

/-- Scenario A, JobB: 2020-06 to present. -/
def scenarioJobB : Exp :=
  { company := some "JobB", title := some "Engineer",
    start_date := some "2020-06", end_date := none, is_current := true }

/-- Counterexample to C4 as stated: on the scenario-A input the single
reported gap (2019-11-01 to 2020-06-01 is 213 days, 213 // 30 = 7 months)
has severity "significant" — not "medium" — because the code labels
`gap_months >= 6` significant, and consequently `has_significant_gaps`
is True, not False. -/
theorem C4_counterexample :
    analyze_has_significant_gaps [scenarioJobA, scenarioJobB] = true ∧
    (analyze_employment_gaps [scenarioJobA, scenarioJobB]).map (·.severity) ≠
      ["medium"] := by
  refine ⟨by rfl, ?_⟩
  intro h
  have : (["significant"] : List String) = ["medium"] := by
    rw [← h]
    rfl
  simp at this

/-- C4 (amended): on the two-entry scenario input, `analyze` reports exactly
one employment gap of 7 months with severity "significant", and
`has_significant_gaps` is True. -/
theorem C4_scenario_gap :
    (analyze_employment_gaps [scenarioJobA, scenarioJobB]).map
      (fun g => (g.start, g.«end», g.duration_months, g.severity)) =
      [("2019-11", "2020-06", 7, "significant")] ∧
    analyze_has_significant_gaps [scenarioJobA, scenarioJobB] = true := by
  constructor <;> rfl

/-! ## C5 -/

/-- The risk label of the stability analysis is determined by the tenure
count, the under-1-year count and the unrounded average alone. -/
theorem stability_risk_eq (l : List Exp) (now : Date) :
    (analyze_stability l now).risk =
      if (analyze_stability l now).tenureCount = 0 then "none"
      else riskOf (analyze_stability l now).rolesUnder1
        (analyze_stability l now).tenureCount (analyze_stability l now).average := by
  unfold analyze_stability
  split
  next hempty => simp
  next hnon =>
    have hne : (positiveDurations l now).length ≠ 0 := by
      intro hz
      rw [List.length_eq_zero.mp hz] at hnon
      exact hnon rfl
    simp only
    rw [if_neg hne]

/-- The under-1-year count never exceeds the tenure count. -/
theorem stability_roles_le_count (l : List Exp) (now : Date) :
    (analyze_stability l now).rolesUnder1 ≤ (analyze_stability l now).tenureCount := by
  unfold analyze_stability
  split
  · simp
  · simpa using List.length_filter_le _ (positiveDurations l now)

/-- C5 (amended): the job-hopping risk is a pure function of
(`roles_under_1_year`, count of entries with positive effective duration,
unrounded average tenure) — the source uses `len(tenures)`, not the raw
entry count — and whenever exactly 3 roles have positive duration under 12
months the risk is "high" regardless of average tenure. -/
theorem C5_risk_function :
    (∀ (l₁ l₂ : List Exp) (now₁ now₂ : Date),
      (analyze_stability l₁ now₁).rolesUnder1 = (analyze_stability l₂ now₂).rolesUnder1 →
      (analyze_stability l₁ now₁).tenureCount = (analyze_stability l₂ now₂).tenureCount →
      (analyze_stability l₁ now₁).average = (analyze_stability l₂ now₂).average →
      (analyze_stability l₁ now₁).risk = (analyze_stability l₂ now₂).risk) ∧
    (∀ (l : List Exp) (now : Date),
      (analyze_stability l now).rolesUnder1 = 3 →
      (analyze_stability l now).risk = "high") := by
  constructor
  · intro l₁ l₂ now₁ now₂ hr hc ha
    rw [stability_risk_eq, stability_risk_eq, hr, hc, ha]
  · intro l now hr
    have hle := stability_roles_le_count l now
    rw [hr] at hle
    rw [stability_risk_eq, hr, if_neg (by omega)]
    unfold riskOf
    rw [if_pos (Or.inl (by omega))]

/-- Entry lists agreeing on (roles under 1 year, raw length, average) but
with different risks. -/
def stabListA : List Exp :=
  [{ duration_months := some 6 }, { duration_months := some 6 },
   { duration_months := some 12 }]

/-- Second list: same triple, but one zero-duration entry is excluded from
`len(tenures)`. -/
def stabListB : List Exp :=
  [{ duration_months := some 6 }, { duration_months := some 10 }, {}]

/-- A fixed reference date for `datetime.now()` in concrete evaluations. -/
def demoNow : Date := ⟨2026, 10, 1⟩

/-- Counterexample to C5 as stated: two three-entry lists with equal
`roles_under_1_year` (2), equal entry count (3) and equal unrounded average
tenure (8 months) classify as "high" and "medium" respectively, because the
risk ladder uses the count of positive-duration tenures (3 vs 2), not the
number of entries. So the risk is not a pure function of
(roles_under_1yr, number of entries, average tenure). -/
theorem C5_counterexample :
    (analyze_stability stabListA demoNow).rolesUnder1 =
      (analyze_stability stabListB demoNow).rolesUnder1 ∧
    stabListA.length = stabListB.length ∧
    (analyze_stability stabListA demoNow).average =
      (analyze_stability stabListB demoNow).average ∧
    (analyze_stability stabListA demoNow).risk = "high" ∧
    (analyze_stability stabListB demoNow).risk = "medium" := by
  have e1 : positiveDurations stabListA demoNow = [6, 6, 12] := by decide
  have e2 : positiveDurations stabListB demoNow = [6, 10] := by decide
  refine ⟨by decide, by decide, ?_, by decide, by decide⟩
  unfold analyze_stability
  rw [e1, e2]
  simp
  norm_num

/-- Scenario B: three entries of 5 months each. -/
def stabScenarioB : List Exp :=
  [{ duration_months := some 5 }, { duration_months := some 5 },
   { duration_months := some 5 }]

/-- Witness for C5: scenario B has exactly 3 roles under a year and the
amended theorem yields risk "high". -/
theorem C5_risk_function_witness :
    (analyze_stability stabScenarioB demoNow).rolesUnder1 = 3 ∧
    (analyze_stability stabScenarioB demoNow).risk = "high" :=
  ⟨by rfl, C5_risk_function.2 stabScenarioB demoNow (by rfl)⟩

/-! ## C6 -/

/-- The aggregation as the claim words it: for each dimension, evaluations
missing that key are ignored entirely (rather than contributing 0), and a
dimension nobody scored is dropped. -/
def claimScoresFor (evaluations : List Evaluation) (key : String) : List ℚ :=
  evaluations.filterMap (fun e => e.scores.bind (fun sc => lookupScore sc key))

/-- The per-dimension aggregates under the claim reading. -/
def claimAggsOf (evaluations : List Evaluation) : List (String × ℚ) :=
  SCORE_KEYS.filterMap
    (fun key =>
      if (claimScoresFor evaluations key).isEmpty then none
      else some (key, round1 (((claimScoresFor evaluations key).sum /
        ((claimScoresFor evaluations key).length : ℚ)) * 10)))

/-- Aggregate scoring as the claim describes it (average of each dimension
over the evaluations that have that key; overall the mean of per-dimension
averages; 0-100 scale). -/
def claim_aggregate_scores (evaluations : List Evaluation) : List (String × ℚ) :=
  if evaluations.isEmpty then []
  else if (claimAggsOf evaluations).isEmpty then claimAggsOf evaluations
  else claimAggsOf evaluations ++
    [("overall", round1 (((claimAggsOf evaluations).map (·.2)).sum /
      ((claimAggsOf evaluations).length : ℚ)))]

/-- The per-dimension aggregates as amended: a dimension is kept whenever
some evaluation carries a truthy scores dict, its value the mean over those
scored evaluations with missing keys counting 0 (a filterMap phrasing of the
source fold). -/
def amendedAggsOf (evaluations : List Evaluation) : List (String × ℚ) :=
  SCORE_KEYS.filterMap
    (fun key =>
      if (aggScoresFor evaluations key).isEmpty then none
      else some (aggEntryFor evaluations key))

/-- Aggregate scoring as amended. -/
def amended_aggregate_scores (evaluations : List Evaluation) : List (String × ℚ) :=
  if evaluations.isEmpty then []
  else if (amendedAggsOf evaluations).isEmpty then amendedAggsOf evaluations
  else amendedAggsOf evaluations ++
    [("overall", round1 (((amendedAggsOf evaluations).map (·.2)).sum /
      ((amendedAggsOf evaluations).length : ℚ)))]

/-- A conditional-append fold is a filterMap. -/
theorem foldl_if_append {α β : Type} (p : α → Bool) (v : α → β) (l : List α)
    (acc : List β) :
    l.foldl (fun acc x => if p x then acc else acc ++ [v x]) acc
      = acc ++ l.filterMap (fun x => if p x then none else some (v x)) := by
  induction l generalizing acc with
  | nil => simp
  | cons h t ih =>
    simp only [List.foldl_cons, List.filterMap_cons]
    by_cases hp : p h
    · simp [hp, ih]
    · rw [if_neg hp, if_neg hp, ih]
      simp

/-- The source fold and the amended filterMap agree. -/
theorem aggsOf_eq_amended (evaluations : List Evaluation) :
    aggsOf evaluations = amendedAggsOf evaluations := by
  unfold aggsOf amendedAggsOf
  rw [foldl_if_append (fun key => (aggScoresFor evaluations key).isEmpty)
    (fun key => aggEntryFor evaluations key) SCORE_KEYS []]
  simp

/-- C6 (amended): `calculate_aggregate_scores` averages each dimension over
the evaluations with a truthy scores dict, counting a missing dimension key
as 0 (not ignoring that evaluation); the overall score is the rounded mean
of the per-dimension 0-100 values; and the recommendation banding on the
overall is >= 85 Strong Hire, >= 70 Hire, >= 50 Maybe, else No Hire. -/
theorem C6_aggregate_scoring :
    (∀ evaluations : List Evaluation,
      calculate_aggregate_scores evaluations = amended_aggregate_scores evaluations) ∧
    (∀ x : ℚ,
      (85 ≤ x → recommendation_of x = "Strong Hire") ∧
      (70 ≤ x → x < 85 → recommendation_of x = "Hire") ∧
      (50 ≤ x → x < 70 → recommendation_of x = "Maybe") ∧
      (x < 50 → recommendation_of x = "No Hire")) := by
  constructor
  · intro evaluations
    unfold calculate_aggregate_scores amended_aggregate_scores
    rw [aggsOf_eq_amended]
  · intro x
    refine ⟨?_, ?_, ?_, ?_⟩
    · intro h
      unfold recommendation_of
      rw [if_pos h]
    · intro h1 h2
      unfold recommendation_of
      rw [if_neg (by linarith), if_pos h1]
    · intro h1 h2
      unfold recommendation_of
      rw [if_neg (by linarith), if_neg (by linarith), if_pos h1]
    · intro h
      unfold recommendation_of
      rw [if_neg (by linarith), if_neg (by linarith), if_neg (by linarith)]

/-- The one-evaluation input on which the stated claim and the code
disagree: only `content` is scored. -/
def demoEvalC6 : Evaluation := { scores := some [("content", 10)] }

/-- Counterexample to C6 as stated: with a single evaluation scoring only
`content`, the code emits every fixed dimension (the five unscored ones
averaging the substituted 0), while under the claim reading (ignore
evaluations missing the key) those dimensions have no contributing
evaluation at all and are absent. -/
theorem C6_counterexample :
    (calculate_aggregate_scores [demoEvalC6]).map (·.1) =
      ["content", "communication", "analytical", "technical_depth",
       "star_method", "authenticity", "overall"] ∧
    (claim_aggregate_scores [demoEvalC6]).map (·.1) = ["content", "overall"] := by
  constructor <;> rfl

/-- Witness for C6 applying the amended theorem at a concrete evaluation
list and concrete overall scores in each band. -/
theorem C6_aggregate_scoring_witness :
    calculate_aggregate_scores [demoEvalC6] = amended_aggregate_scores [demoEvalC6] ∧
    recommendation_of 90 = "Strong Hire" ∧ recommendation_of 72 = "Hire" ∧
    recommendation_of 55 = "Maybe" ∧ recommendation_of 10 = "No Hire" :=
  ⟨C6_aggregate_scoring.1 [demoEvalC6],
   (C6_aggregate_scoring.2 90).1 (by norm_num),
   (C6_aggregate_scoring.2 72).2.1 (by norm_num) (by norm_num),
   (C6_aggregate_scoring.2 55).2.2.1 (by norm_num) (by norm_num),
   (C6_aggregate_scoring.2 10).2.2.2 (by norm_num)⟩

/-! ## C3 -/

/-- The per-pair gap rule as the claim states it, for a pair adjacent in the
ascending chronological order: no gap when the earlier entry is current or
either boundary date is unparseable; otherwise a gap exactly when the day
difference `later.start - earlier.end` exceeds 30, with `duration_months`
the floor of that day difference divided by 30 (severity banded as in the
data model). -/
def claimGapOfPair (earlier later : Exp) : Option GapInfo :=
  match parse_date earlier.end_date, parse_date later.start_date with
  | some prevEnd, some nextStart =>
    if earlier.is_current then none
    else if 30 < (ordinal nextStart : Int) - (ordinal prevEnd : Int) then
      some { start := formatYM prevEnd
             «end» := formatYM nextStart
             duration_months := ((ordinal nextStart : Int) - (ordinal prevEnd : Int)) / 30
             between_companies := (earlier.company.getD "Unknown") ++ " and " ++
               (later.company.getD "Unknown")
             severity :=
               if ((ordinal nextStart : Int) - (ordinal prevEnd : Int)) / 30 < 3 then "minor"
               else if ((ordinal nextStart : Int) - (ordinal prevEnd : Int)) / 30 < 6 then "medium"
               else "significant" }
    else none
  | _, _ => none

/-- The source loop body and the claim rule agree on every pair. -/
theorem gapPair_eq_claim (a b : Exp) : gapPair a b = claimGapOfPair a b := by
  unfold gapPair claimGapOfPair
  cases hac : a.is_current <;>
    cases hae : parse_date a.end_date <;>
    cases hbs : parse_date b.start_date <;>
    simp

/-- The indexed loop of `_analyze_gaps` is the filterMap of the pair rule
over consecutive pairs. -/
theorem gapsLoop_eq (l : List Exp) :
    gapsLoop l = (l.zip l.tail).filterMap (fun p => gapPair p.1 p.2) := by
  induction l with
  | nil => rfl
  | cons a t ih =>
    cases t with
    | nil => rfl
    | cons b rest =>
      show (gapPair a b).toList ++ gapsLoop (b :: rest) = _
      rw [ih]
      cases hg : gapPair a b <;> simp [hg]

/-- Stable ascending insertion preserves length. -/
theorem insertAsc_length (key : Exp → Date) (x : Exp) (l : List Exp) :
    (insertAsc key x l).length = l.length + 1 := by
  induction l with
  | nil => rfl
  | cons y ys ih =>
    unfold insertAsc
    split
    · simp
    · simp [ih]

/-- The ascending sort preserves length. -/
theorem sortStartAsc_length (l : List Exp) :
    (sortStartAsc l).length = l.length := by
  have haux : ∀ (m : List Exp) (acc : List Exp),
      (m.foldl (fun acc x => insertAsc sortKeyAsc x acc) acc).length =
        acc.length + m.length := by
    intro m
    induction m with
    | nil => intro acc; simp
    | cons h t ih =>
      intro acc
      simp only [List.foldl_cons]
      rw [ih (insertAsc sortKeyAsc h acc), insertAsc_length]
      simp only [List.length_cons]
      omega
  unfold sortStartAsc
  rw [haux l []]
  simp

/-- C3: `_analyze_gaps` emits, over the pairs adjacent in the
ascending-by-start chronological order, exactly the gaps described by the
claim rule: a gap iff the earlier entry is not current, both boundary dates
parse, and the day difference exceeds 30, with `duration_months` its floor
division by 30; pairs with an unparseable date or a current earlier entry
produce nothing. -/
theorem C3_gap_characterisation (entries : List Exp) :
    analyze_gaps entries =
      ((sortStartAsc entries).zip (sortStartAsc entries).tail).filterMap
        (fun p => claimGapOfPair p.1 p.2) := by
  have hfun : (fun p : Exp × Exp => gapPair p.1 p.2) =
      (fun p : Exp × Exp => claimGapOfPair p.1 p.2) :=
    funext (fun p => gapPair_eq_claim p.1 p.2)
  unfold analyze_gaps
  split
  next hlt =>
    have hs : (sortStartAsc entries).length < 2 := by
      rw [sortStartAsc_length]
      exact hlt
    match hsort : sortStartAsc entries with
    | [] => rfl
    | [a] => rfl
    | a :: b :: t =>
      rw [hsort] at hs
      simp at hs
      omega
  next hge =>
    rw [gapsLoop_eq, hfun]

/-! ## C8 -/

/-- Half-to-even rounding at denominator 12 of a non-negative numerator is
non-negative. -/
theorem halfEvenDiv_twelve_nonneg (n : Int) (h : 0 ≤ n) :
    0 ≤ halfEvenDiv n 12 := by
  unfold halfEvenDiv
  split_ifs <;> omega

/-- Half-to-even rounding at denominator 12 is monotone. -/
theorem halfEvenDiv_twelve_mono (n n' : Int) (h : n ≤ n') :
    halfEvenDiv n 12 ≤ halfEvenDiv n' 12 := by
  unfold halfEvenDiv
  split_ifs <;> omega

/-- A date with a calendar-valid month field. -/
def validYM (dt : Date) : Prop := 1 ≤ dt.m ∧ dt.m ≤ 12

instance (dt : Date) : Decidable (validYM dt) := by
  unfold validYM
  infer_instance

/-- `%Y-%m`-style parses have months in 1..12. -/
theorem parseYMSep_validYM (sep : Char) (l : List Char) (dt : Date)
    (h : parseYMSep sep l = some dt) : validYM dt := by
  unfold parseYMSep at h
  split at h
  · split at h
    · split at h
      next hcond =>
        injection h with h
        subst h
        simp only [decide_eq_true_eq] at hcond
        exact ⟨hcond.2.1, hcond.2.2⟩
      · exact absurd h (by simp)
    · exact absurd h (by simp)
  · exact absurd h (by simp)

/-- `%Y-%m-%d` parses have months in 1..12. -/
theorem parseYMD_validYM (l : List Char) (dt : Date)
    (h : parseYMD l = some dt) : validYM dt := by
  unfold parseYMD at h
  split at h
  · split at h
    · split at h
      · split at h
        · split at h
          next hcond =>
            injection h with h
            subst h
            simp only [decide_eq_true_eq] at hcond
            exact ⟨hcond.2.1, hcond.2.2.1⟩
          · exact absurd h (by simp)
        · exact absurd h (by simp)
      · exact absurd h (by simp)
    · exact absurd h (by simp)
  · exact absurd h (by simp)

/-- `%Y` parses have month 1. -/
theorem parseY_validYM (l : List Char) (dt : Date)
    (h : parseY l = some dt) : validYM dt := by
  unfold parseY at h
  split at h
  · injection h with h
    subst h
    refine ⟨Nat.le_refl 1, ?_⟩
    show (1 : Nat) ≤ 12
    omega
  · exact absurd h (by simp)

/-- Every date produced by `_parse_date` has a month in 1..12. -/
theorem parse_date_validYM (v : Option String) (dt : Date)
    (h : parse_date v = some dt) : validYM dt := by
  unfold parse_date at h
  split at h
  · exact absurd h (by simp)
  · split at h
    · exact absurd h (by simp)
    · split at h
      · exact absurd h (by simp)
      · rcases (Option.orElse_eq_some' _ _ _).mp h with h1 | ⟨-, h2⟩
        · exact parseYMSep_validYM _ _ _ h1
        · rcases (Option.orElse_eq_some' _ _ _).mp h2 with h3 | ⟨-, h4⟩
          · exact parseYMSep_validYM _ _ _ h3
          · rcases (Option.orElse_eq_some' _ _ _).mp h4 with h5 | ⟨-, h6⟩
            · exact parseYMD_validYM _ _ h5
            · exact parseY_validYM _ _ h6

/-- Arithmetic reading of a true date comparison. -/
theorem dateLt_true (a b : Date) :
    dateLt a b = true ↔
      (a.y < b.y ∨ (a.y = b.y ∧ (a.m < b.m ∨ (a.m = b.m ∧ a.d < b.d)))) := by
  simp [dateLt]

/-- Arithmetic reading of a false date comparison. -/
theorem dateLt_false (a b : Date) :
    dateLt a b = false ↔
      ¬(a.y < b.y ∨ (a.y = b.y ∧ (a.m < b.m ∨ (a.m = b.m ∧ a.d < b.d)))) := by
  simp [dateLt]

/-- Dates do not compare below themselves. -/
theorem dateLt_irrefl (a : Date) : dateLt a a = false := by
  rw [dateLt_false]
  omega

/-- Pointwise order on optional dates: an absent accumulator is below
everything, a present one only below later-or-equal present ones. -/
def optDateLe : Option Date → Option Date → Prop
  | none, _ => True
  | some _, none => False
  | some a, some b => dateLt b a = false

/-- One max-accumulation step preserves the accumulator order. -/
theorem lateStep_mono (now : Date) (a b : Option Date) (e : Exp)
    (h : optDateLe a b) : optDateLe (lateStep now a e) (lateStep now b e) := by
  unfold lateStep
  cases hEE : effectiveEnd now e with
  | none => exact h
  | some en =>
    cases a with
    | none =>
      cases b with
      | none => simpa [optDateLe] using dateLt_irrefl en
      | some lb =>
        simp only
        split
        · simpa [optDateLe] using dateLt_irrefl en
        next h2 =>
          simp only [optDateLe]
          simpa using h2
    | some la =>
      cases b with
      | none => exact absurd h (by simp [optDateLe])
      | some lb =>
        simp only [optDateLe] at h
        simp only
        split <;> split
        · simpa [optDateLe] using dateLt_irrefl en
        next h1 h2 =>
          simp only [optDateLe]
          simpa using h2
        next h1 h2 =>
          rw [dateLt_false] at h
          rw [dateLt_true] at h2
          simp only [Bool.not_eq_true] at h1
          rw [dateLt_false] at h1
          simp only [optDateLe]
          rw [dateLt_false]
          omega
        next h1 h2 =>
          exact h

/-- The whole max fold preserves the accumulator order. -/
theorem foldl_lateStep_mono (now : Date) (l : List Exp) (a b : Option Date)
    (h : optDateLe a b) :
    optDateLe (l.foldl (lateStep now) a) (l.foldl (lateStep now) b) := by
  induction l generalizing a b with
  | nil => exact h
  | cons e t ih =>
    simp only [List.foldl_cons]
    exact ih _ _ (lateStep_mono now a b e h)

/-- A present accumulator stays present through one step. -/
theorem lateStep_isSome (now : Date) (x : Date) (e : Exp) :
    ∃ y, lateStep now (some x) e = some y := by
  unfold lateStep
  cases effectiveEnd now e with
  | none => exact ⟨x, rfl⟩
  | some en =>
    simp only
    split
    · exact ⟨en, rfl⟩
    · exact ⟨x, rfl⟩

/-- A present accumulator stays present through the fold. -/
theorem foldl_lateStep_isSome (now : Date) (l : List Exp) (x : Date) :
    ∃ y, l.foldl (lateStep now) (some x) = some y := by
  induction l generalizing x with
  | nil => exact ⟨x, rfl⟩
  | cons e t ih =>
    simp only [List.foldl_cons]
    obtain ⟨y, hy⟩ := lateStep_isSome now x e
    rw [hy]
    exact ih y

/-- Effective ends have calendar-valid months when `now` does. -/
theorem effectiveEnd_validYM (now : Date) (e : Exp) (dt : Date)
    (hnow : validYM now) (h : effectiveEnd now e = some dt) : validYM dt := by
  unfold effectiveEnd at h
  split at h
  · injection h with h
    subst h
    exact hnow
  · exact parse_date_validYM _ _ h

/-- Validity of the max accumulator is preserved by one step. -/
theorem lateStep_validYM (now : Date) (acc : Option Date) (e : Exp)
    (hnow : validYM now) (hacc : ∀ x, acc = some x → validYM x) :
    ∀ x, lateStep now acc e = some x → validYM x := by
  intro x hx
  unfold lateStep at hx
  split at hx
  · exact hacc x hx
  next en hEE =>
    cases acc with
    | none =>
      injection hx with hx
      subst hx
      exact effectiveEnd_validYM now e en hnow hEE
    | some le =>
      simp only at hx
      split at hx
      · injection hx with hx
        subst hx
        exact effectiveEnd_validYM now e en hnow hEE
      · exact hacc x hx

/-- Validity of the max accumulator is preserved by the fold. -/
theorem foldl_lateStep_validYM (now : Date) (l : List Exp) (acc : Option Date)
    (hnow : validYM now) (hacc : ∀ x, acc = some x → validYM x) :
    ∀ x, l.foldl (lateStep now) acc = some x → validYM x := by
  induction l generalizing acc with
  | nil => exact hacc
  | cons e t ih =>
    simp only [List.foldl_cons]
    exact ih _ (lateStep_validYM now acc e hnow hacc)

/-- For dates with valid months, the lexicographic order entails the order
of the month-count `12 * year + month`, so the span from a fixed start is
monotone in the end date. -/
theorem monthsSpan_mono (es le₁ le₂ : Date) (h₁ : validYM le₁)
    (h₂ : validYM le₂) (h : dateLt le₂ le₁ = false) :
    monthsSpan es le₁ ≤ monthsSpan es le₂ := by
  unfold monthsSpan
  rw [dateLt_false] at h
  unfold validYM at h₁ h₂
  have : 12 * le₁.y + le₁.m ≤ 12 * le₂.y + le₂.m := by omega
  omega

/-- An entry with a resolvable effective end keeps any accumulator present. -/
theorem lateStep_isSome_of_end (now : Date) (A : Option Date) (e : Exp)
    (dt : Date) (h : effectiveEnd now e = some dt) :
    ∃ z, lateStep now A e = some z := by
  cases A with
  | none =>
    unfold lateStep
    rw [h]
    exact ⟨dt, rfl⟩
  | some x => exact lateStep_isSome now x e

/-- C8 (amended): `total_experience` is non-negative whenever the earliest
parsed start does not lie after the effective latest end in month count (in
particular for every consistent history), and it is monotonically
non-decreasing when any single entry's end date is replaced by a later
parseable date with the other fields unchanged. (The counterexample shows
the unconditional non-negativity fails for histories whose ends all precede
their starts.) -/
theorem C8_total_experience :
    (∀ (l : List Exp) (now es le : Date),
      earliestStart l = some es →
      (latestEnd l now).getD now = le →
      12 * es.y + es.m ≤ 12 * le.y + le.m →
      0 ≤ total_experience_tenths l now) ∧
    (∀ (pre post : List Exp) (e e' : Exp) (now de de' : Date),
      validYM now →
      parse_date e.end_date = some de →
      parse_date e'.end_date = some de' →
      dateLt de' de = false →
      e'.start_date = e.start_date →
      e'.is_current = e.is_current →
      total_experience_tenths (pre ++ e :: post) now ≤
        total_experience_tenths (pre ++ e' :: post) now) := by
  constructor
  · intro l now es le hes hle hineq
    unfold total_experience_tenths
    rw [hes, hle]
    apply halfEvenDiv_twelve_nonneg
    unfold monthsSpan
    omega
  · intro pre post e e' now de de' hnow hde hde' hlt hstart hcur
    have hES : earliestStart (pre ++ e :: post) = earliestStart (pre ++ e' :: post) := by
      unfold earliestStart
      rw [List.foldl_append, List.foldl_append, List.foldl_cons, List.foldl_cons]
      have hstep : earlyStep (List.foldl earlyStep none pre) e =
          earlyStep (List.foldl earlyStep none pre) e' := by
        unfold earlyStep
        rw [hstart]
      rw [hstep]
    by_cases hc : e.is_current = true
    · -- a current entry's end field is ignored: the two lists agree
      have hEE : effectiveEnd now e = effectiveEnd now e' := by
        unfold effectiveEnd
        rw [hcur, hc]
        rfl
      have hLE : latestEnd (pre ++ e :: post) now = latestEnd (pre ++ e' :: post) now := by
        unfold latestEnd
        rw [List.foldl_append, List.foldl_append, List.foldl_cons, List.foldl_cons]
        have hstep : lateStep now (List.foldl (lateStep now) none pre) e =
            lateStep now (List.foldl (lateStep now) none pre) e' := by
          unfold lateStep
          rw [hEE]
        rw [hstep]
      unfold total_experience_tenths
      rw [hES, hLE]
    · have hc' : e.is_current = false := by
        exact Bool.not_eq_true _ ▸ hc
      have hEEe : effectiveEnd now e = some de := by
        unfold effectiveEnd
        rw [hc']
        simpa using hde
      have hEEe' : effectiveEnd now e' = some de' := by
        unfold effectiveEnd
        rw [hcur, hc']
        simpa using hde'
      have hstep_le : ∀ A : Option Date,
          optDateLe (lateStep now A e) (lateStep now A e') := by
        intro A
        unfold lateStep
        rw [hEEe, hEEe']
        cases A with
        | none => simpa [optDateLe] using hlt
        | some la =>
          simp only
          split <;> split
          · simpa [optDateLe] using hlt
          next h1 h2 =>
            simp only [Bool.not_eq_true] at h2
            rw [dateLt_true] at h1
            rw [dateLt_false] at h2 hlt
            simp only [optDateLe]
            rw [dateLt_false]
            omega
          next h1 h2 =>
            simp only [Bool.not_eq_true] at h1
            rw [dateLt_true] at h2
            rw [dateLt_false] at h1 hlt
            simp only [optDateLe]
            rw [dateLt_false]
            omega
          next h1 h2 =>
            simpa [optDateLe] using dateLt_irrefl la
      have hfold_le : optDateLe (latestEnd (pre ++ e :: post) now)
          (latestEnd (pre ++ e' :: post) now) := by
        unfold latestEnd
        rw [List.foldl_append, List.foldl_append, List.foldl_cons, List.foldl_cons]
        exact foldl_lateStep_mono now post _ _ (hstep_le _)
      obtain ⟨y1, hy1⟩ : ∃ y, latestEnd (pre ++ e :: post) now = some y := by
        unfold latestEnd
        rw [List.foldl_append, List.foldl_cons]
        obtain ⟨z, hz⟩ := lateStep_isSome_of_end now
          (List.foldl (lateStep now) none pre) e de hEEe
        rw [hz]
        exact foldl_lateStep_isSome now post z
      obtain ⟨y2, hy2⟩ : ∃ y, latestEnd (pre ++ e' :: post) now = some y := by
        unfold latestEnd
        rw [List.foldl_append, List.foldl_cons]
        obtain ⟨z, hz⟩ := lateStep_isSome_of_end now
          (List.foldl (lateStep now) none pre) e' de' hEEe'
        rw [hz]
        exact foldl_lateStep_isSome now post z
      have hv1 : validYM y1 :=
        foldl_lateStep_validYM now (pre ++ e :: post) none hnow
          (by intro x hx; exact absurd hx (by simp)) y1 hy1
      have hv2 : validYM y2 :=
        foldl_lateStep_validYM now (pre ++ e' :: post) none hnow
          (by intro x hx; exact absurd hx (by simp)) y2 hy2
      have hle12 : dateLt y2 y1 = false := by
        rw [hy1, hy2] at hfold_le
        simpa [optDateLe] using hfold_le
      unfold total_experience_tenths
      rw [hES]
      cases hes : earliestStart (pre ++ e' :: post) with
      | none => exact le_refl 0
      | some es =>
        rw [hy1, hy2]
        simp only [Option.getD_some]
        exact halfEvenDiv_twelve_mono _ _
          (by have := monthsSpan_mono es y1 y2 hv1 hv2 hle12; omega)

/-- An entry whose end date precedes its start date. -/
def negEntry : Exp := { start_date := some "2021-01", end_date := some "2020-01" }

/-- Counterexample to C8 as stated: for a single entry ending a year before
it starts, `_calculate_total_experience` spans from the start to the earlier
end and returns -1.0 years (-10 tenths), so `total_experience_years >= 0`
does not hold for every entry list. -/
theorem C8_counterexample : total_experience_tenths [negEntry] demoNow < 0 := by
  decide

/-- A five-month entry and the same entry with its end extended. -/
def c8entry : Exp := { start_date := some "2019-01", end_date := some "2019-06" }

/-- The same entry with the end moved three months later. -/
def c8entryExt : Exp := { start_date := some "2019-01", end_date := some "2019-09" }

/-- Witness for C8 at concrete entries: non-negativity on a consistent
single-entry history and monotonicity under the concrete end extension. -/
theorem C8_total_experience_witness :
    0 ≤ total_experience_tenths [c8entry] demoNow ∧
    total_experience_tenths [c8entry] demoNow ≤
      total_experience_tenths [c8entryExt] demoNow :=
  ⟨C8_total_experience.1 [c8entry] demoNow ⟨2019, 1, 1⟩ ⟨2019, 6, 1⟩
    (by decide) (by decide) (by decide),
   C8_total_experience.2 [] [] c8entry c8entryExt demoNow ⟨2019, 6, 1⟩
    ⟨2019, 9, 1⟩ (by decide) (by decide) (by decide) (by decide) rfl rfl⟩
